import Mathlib

/-!
# trace-cmd unit-test harness (`utest/tracecmd-utest.c`)

A shallow embedding of the process-pipeline helpers of the trace-cmd unit
tests: `get_args`, `wait_for_exec`, `run_trace`, `pipe_it`, `do_grep`,
`do_grep_it`, `grep_match` and `read_stats`.

Results of the operating system and of the C library (pipe, fork, fdopen,
getline, waitpid, regcomp, list allocation) are inputs of the model; every
call the C code makes is recorded as an `Event`, in program order. The
descriptor table (`Kernel`) and the output pipe with the `stdout` buffer
(`Stdio`) are obtained by running the recorded calls.
-/

namespace TraceCmdUtest

/-! ## Wait status words (`<sys/wait.h>`, Linux encoding) -/

/-- How a child reaped by `waitpid(pid, &status, 0)` ended. -/
inductive Termination where
  | exited (code : Nat)
  | signaled (sig : Nat) (core : Bool)
  deriving DecidableEq, Repr

/-- The status word the kernel stores for a termination: the exit code in bits
8..15 for a normal exit, the signal number in bits 0..6 (bit 7: core dumped)
for a death by signal. -/
def Termination.status : Termination → Nat
  | .exited code => (code % 256) * 256
  | .signaled sig core => sig % 128 + (if core then 128 else 0)

/-- `WEXITSTATUS(status)` of `<sys/wait.h>`, that is `((status) & 0xff00) >> 8`. -/
def WEXITSTATUS (status : Nat) : Nat := (status / 256) % 256

/-- `WIFEXITED(status)` of `<sys/wait.h>`, that is `((status) & 0x7f) == 0`. The
C file never uses it. -/
def WIFEXITED (status : Nat) : Bool := status % 128 = 0

/-- What `waitpid` gave back: its return value and the status word. -/
structure WaitResult where
  ret : Int
  status : Nat
  deriving DecidableEq, Repr

/-- The function `wait_for_exec`:
`ret = waitpid(pid, &status, 0); if (ret != pid) return -1;`
`return WEXITSTATUS(status) ? -1 : 0;` -/
def wait_for_exec (pid : Int) (r : WaitResult) : Int :=
  if r.ret ≠ pid then -1
  else if WEXITSTATUS r.status ≠ 0 then -1 else 0

/-! ## Calls and their results -/

/-- A file descriptor number. -/
abbrev Fd := Nat

/-- The bytes of one buffer filled by `getline` (without the final NUL). -/
abbrev Line := List Nat

/-- One call made by the C code, with the result the environment gave it. -/
inductive Event where
  | pipe (rd wr : Fd)
  | pipeFailed
  | fork (pid : Nat)
  | forkFailed
  | close (fd : Fd)
  | fdopen (fd : Fd) (ok : Bool)
  | getline (n : Int) (eof : Bool)
  | printf (text : Line)
  | free
  | waitpid (pid : Int) (ret : Int)
  | fclose (fd : Fd)
  | perror
  | regfree
  | cuTest (passed : Bool)
  | listFree
  deriving DecidableEq, Repr

/-- What the environment answers to the calls of one parent-side run:
the two `pipe` calls (read end, write end), `fork` as seen by the parent (the
pid of the child), `fdopen`, the successive buffers `getline` fills before it
returns -1, `waitpid`, and whether that -1 of `getline` is the end of the
stream (`true`) or a failure of `getline` before the end (`false`). -/
structure Env where
  pipe1 : Option (Fd × Fd)
  pipe2 : Option (Fd × Fd)
  fork : Option Nat
  fdopenOk : Bool
  lines : List Line
  wait : WaitResult
  readsToEOF : Bool

/-- The contract of `getline`: a successful call stores at least one byte. -/
def GetlineOk (lines : List Line) : Prop := ∀ l ∈ lines, l ≠ []

instance (lines : List Line) : Decidable (GetlineOk lines) := by
  unfold GetlineOk; infer_instance

/-- The C string held in a buffer: the bytes before the first NUL. It is what
`printf("%s", buf)` prints and what `regexec` examines. -/
def cstr (buf : Line) : Line := buf.takeWhile (fun c => c != 0)

/-! ## The kernel's view of a sequence of calls -/

/-- Open descriptors and unreaped children of the calling process. -/
structure Kernel where
  openFds : Finset Fd
  children : Finset Int
  deriving DecidableEq

/-- Effect of one call on the descriptor table and on the child table. -/
def Kernel.step (k : Kernel) : Event → Kernel
  | .pipe rd wr => { k with openFds := insert wr (insert rd k.openFds) }
  | .close fd => { k with openFds := k.openFds.erase fd }
  | .fclose fd => { k with openFds := k.openFds.erase fd }
  | .fork pid => { k with children := insert (pid : Int) k.children }
  | .waitpid pid ret => if ret = pid then { k with children := k.children.erase pid } else k
  | _ => k

/-- Effect of a sequence of calls, in order. -/
def Kernel.run (k : Kernel) (es : List Event) : Kernel := es.foldl Kernel.step k

/-- Whether a call releases descriptor `fd`: `close(fd)`, or `fclose` of the
stream opened over `fd`. -/
def Event.closes (fd : Fd) : Event → Bool
  | .close f => f = fd
  | .fclose f => f = fd
  | _ => false

/-- Number of calls that release descriptor `fd`. -/
def closeCount (fd : Fd) (es : List Event) : Nat := es.countP (Event.closes fd)

/-- Number of `waitpid` calls. -/
def waitCount (es : List Event) : Nat :=
  es.countP (fun e => match e with | .waitpid _ _ => true | _ => false)

/-- Number of successful `fork` calls. -/
def forkCount (es : List Event) : Nat :=
  es.countP (fun e => match e with | .fork _ => true | _ => false)

/-- Whether every `waitpid` of the sequence comes after a `getline` that
returned a negative value with the stream at end of file; `seen` tells whether
end of file was already reached. -/
def waitsAfterEOF : Bool → List Event → Bool
  | _, [] => true
  | seen, .getline n eof :: es => waitsAfterEOF (seen || (decide (n < 0) && eof)) es
  | seen, .waitpid _ _ :: es => seen && waitsAfterEOF seen es
  | seen, _ :: es => waitsAfterEOF seen es

/-- The outcomes of the `CU_TEST` checks, in order. -/
def checks (es : List Event) : List Bool :=
  es.filterMap (fun e => match e with | .cuTest b => some b | _ => none)

/-! ## `get_args` and `run_trace` -/

/-- The library call `tracefs_list_add(list, string)` (libtracefs): a new list
with a copy of `string` appended, or NULL when memory runs out; the old list is
left as it was. `ok` tells whether the allocation succeeds. -/
def tracefs_list_add (ok : Bool) (list : List String) (string : String) :
    Option (List String) :=
  if ok then some (list ++ [string]) else none

/-- Result of `get_args`: the argument vector; or NULL, with the list handed to
`tracefs_list_free` on the way out (if any); or `undefined` when `va_arg` runs
past the arguments without meeting the NULL sentinel. -/
inductive Args where
  | argv (list : List String)
  | null (freed : Option (List String))
  | undefined
  deriving DecidableEq, Repr

/-- The `for` loop of `get_args` over the variable arguments; `k` counts the
calls to `tracefs_list_add` made so far and `allocOk k` tells whether call
number `k` succeeds. -/
def get_args_loop (allocOk : Nat → Bool) : Nat → List String → List (Option String) → Args
  | _, _, [] => .undefined
  | _, argv, none :: _ => .argv argv
  | k, argv, some param :: ap =>
    match tracefs_list_add (allocOk k) argv param with
    | none => .null (some argv)
    | some tmp => get_args_loop allocOk (k + 1) tmp ap

/-- The function `get_args(cmd, ap)`; `tracecmd_exec` is the global holding the
program path. -/
def get_args (tracecmd_exec : String) (allocOk : Nat → Bool) (cmd : String)
    (ap : List (Option String)) : Args :=
  match tracefs_list_add (allocOk 0) [] tracecmd_exec with
  | none => .null none
  | some argv =>
    match tracefs_list_add (allocOk 1) argv cmd with
    | none => .null (some argv)
    | some tmp => get_args_loop allocOk 2 tmp ap

/-- A function result together with the calls made while computing it. -/
structure Run where
  ret : Int
  events : List Event
  deriving DecidableEq, Repr

/-- The function `run_trace(cmd, ...)` in the parent process: `fork` gives the
pid of the child running `execvp(tracecmd_exec, argv)`, or fails. The result
is `none` only where `get_args` is undefined. -/
def run_trace (tracecmd_exec : String) (allocOk : Nat → Bool) (cmd : String)
    (ap : List (Option String)) (fork : Option Nat) (wait : WaitResult) : Option Run :=
  match get_args tracecmd_exec allocOk cmd ap with
  | .undefined => none
  | .null _ => some ⟨-1, []⟩
  | .argv _ =>
    match fork with
    | none => some ⟨-1, [.forkFailed, .listFree]⟩
    | some pid =>
      some ⟨wait_for_exec pid wait, [.fork pid, .waitpid pid wait.ret, .listFree]⟩

/-- How a call of `do_grep` ends. -/
inductive DoGrep where
  | exit (status : Int)
  | exec (path : String) (argv : List String)
  | ret (value : Int)
  | undefined
  deriving DecidableEq, Repr

/-- The function `do_grep(data)`, run in the inner child: `exit(-1)` without
`get_args`'s list, else `execvp(tracecmd_exec, argv)`, which only returns (-1)
when it fails. -/
def do_grep (tracecmd_exec : String) (allocOk : Nat → Bool) (cmd : String)
    (ap : List (Option String)) (execvpOk : Bool) : DoGrep :=
  match get_args tracecmd_exec allocOk cmd ap with
  | .undefined => .undefined
  | .null _ => .exit (-1)
  | .argv argv => if execvpOk then .exec tracecmd_exec argv else .ret (-1)

/-! ## `pipe_it` -/

/-- Result of `pipe_it` in the calling process: the return value, what was
stored through `ofd` and `efd` (`none`: nothing stored), and the calls made. -/
structure PipeIt where
  ret : Int
  ofd : Option Fd
  efd : Option Fd
  events : List Event
  deriving DecidableEq, Repr

/-- The function `pipe_it(ofd, efd, func, data)` as it runs in the calling
process (the child's branch is `pipe_it_child`). -/
def pipe_it (env : Env) : PipeIt :=
  match env.pipe1 with
  | none => ⟨-1, none, none, [.pipeFailed]⟩
  | some (o0, o1) =>
    match env.pipe2 with
    | none =>
      ⟨-1, none, none, [.pipe o0 o1, .pipeFailed, .close o0, .close o1]⟩
    | some (e0, e1) =>
      match env.fork with
      | none =>
        ⟨-1, none, none,
          [.pipe o0 o1, .pipe e0 e1, .forkFailed,
           .close e0, .close e1, .close o0, .close o1]⟩
      | some pid =>
        ⟨pid, some o0, some e0,
          [.pipe o0 o1, .pipe e0 e1, .fork pid, .close o1, .close e1]⟩

/-- How the child created by `pipe_it` ends. -/
inductive ChildEnd where
  | exit (status : Int)
  | shell (command : String) (fallbackExit : Int)
  deriving DecidableEq, Repr

/-- The child's branch of `pipe_it`: `exit(-1)` when a `dup2` fails; otherwise
`ret = func(data)`, then `sh -c "exit <ret>"` through `execl`, and `exit(ret)`
should both `execl` calls fail. -/
def pipe_it_child (dup2Out dup2Err : Bool) (func : Unit → Int) : ChildEnd :=
  if !dup2Out then .exit (-1)
  else if !dup2Err then .exit (-1)
  else
    let ret := func ()
    .shell ("exit " ++ toString ret) ret

/-! ## `do_grep_it` -/

/-- The `do ... while (n >= 0)` loop of `do_grep_it` over the buffers `getline`
fills: `if (n > 0 && regexec(&reg, buf, 0, NULL, 0) == 0) printf("%s", buf);`.
`reg` tells whether the compiled pattern matches a C string. -/
def do_grep_it_loop (reg : Line → Bool) (eof : Bool) : List Line → List Event
  | [] => [.getline (-1) eof]
  | buf :: rest =>
    let n : Int := buf.length
    if n > 0 && reg (cstr buf) then
      .getline n false :: .printf (cstr buf) :: do_grep_it_loop reg eof rest
    else
      .getline n false :: do_grep_it_loop reg eof rest

/-- The function `do_grep_it(data)` in the filter process. `regcomp` is the
result of compiling the pattern with `REG_ICASE|REG_NOSUB`: `none` when
`regcomp` fails, else the match predicate of `regexec`. `env` answers the
calls about the inner process. -/
def do_grep_it (regcomp : Option (Line → Bool)) (env : Env) : Run :=
  match regcomp with
  | none => ⟨-1, []⟩
  | some reg =>
    let p := pipe_it env
    let pid := p.ret
    if pid < 0 then ⟨-1, p.events ++ [.regfree]⟩
    else
      let ofd := p.ofd.getD 0
      let efd := p.efd.getD 0
      if env.fdopenOk then
        let ret := wait_for_exec pid env.wait
        ⟨if ret > 0 then 0 else ret,
          p.events ++ [.fdopen ofd true] ++ do_grep_it_loop reg env.readsToEOF env.lines ++
            [.free, .waitpid pid env.wait.ret, .fclose ofd, .close ofd, .close efd,
             .regfree]⟩
      else
        let ret := wait_for_exec pid env.wait
        ⟨if ret > 0 then 0 else ret,
          p.events ++
            [.fdopen ofd false, .waitpid pid env.wait.ret, .perror, .close ofd,
             .close efd, .regfree]⟩

/-! ## `grep_match` -/

/-- The `do ... while (n >= 0)` loop of `grep_match`: `found` becomes true at
the first buffer with `n > 0`; the buffer is echoed when `show_output` is set.
The result is the final `found` and the calls made. -/
def grep_match_loop (show_output : Bool) (eof : Bool) :
    List Line → Bool → Bool × List Event
  | [], found => (found, [.getline (-1) eof])
  | buf :: rest, found =>
    let n : Int := buf.length
    if n > 0 then
      let r := grep_match_loop show_output eof rest true
      (r.1, .getline n false ::
        ((if show_output then [.printf (cstr buf)] else []) ++ r.2))
    else
      let r := grep_match_loop show_output eof rest found
      (r.1, .getline n false :: r.2)

/-- The function `grep_match(match, cmd, ...)` in the calling process; `env`
answers the calls about the filter process. -/
def grep_match (show_output : Bool) (env : Env) : Run :=
  let p := pipe_it env
  let pid := p.ret
  if pid < 0 then ⟨-1, p.events⟩
  else
    let ofd := p.ofd.getD 0
    let efd := p.efd.getD 0
    if env.fdopenOk then
      let r := grep_match_loop show_output env.readsToEOF env.lines false
      let found := r.1
      ⟨if found then 0 else 1,
        p.events ++ [.fdopen ofd true] ++ r.2 ++
          [.free, .waitpid pid env.wait.ret, .fclose ofd, .close efd]⟩
    else
      let found := false
      ⟨if found then 0 else 1,
        p.events ++
          [.fdopen ofd false, .waitpid pid env.wait.ret, .perror, .close ofd,
           .close efd]⟩

/-! ## `read_stats` -/

/-- The C library's `isspace` in the C locale. -/
def isspace (c : Nat) : Bool := c = 32 || (9 ≤ c && c ≤ 13)

/-- The C library's `isdigit`. -/
def isdigit (c : Nat) : Bool := 48 ≤ c && c ≤ 57

/-- Value of a run of decimal digits, most significant first. -/
def digitsValue (ds : List Nat) : Nat := ds.foldl (fun acc c => 10 * acc + (c - 48)) 0

/-- The integer written at the start of a C string, as `strtol(s, NULL, 10)`
reads it before any range check: white space, an optional sign, digits. -/
def strtolValue (s : Line) : Int :=
  match s.dropWhile isspace with
  | [] => 0
  | c :: t =>
    if c = 45 then -((digitsValue (t.takeWhile isdigit) : Nat) : Int)
    else if c = 43 then ((digitsValue (t.takeWhile isdigit) : Nat) : Int)
    else ((digitsValue ((c :: t).takeWhile isdigit) : Nat) : Int)

/-- Largest value of the C type `int`. -/
def INT_MAX : Int := 2147483647

/-- Smallest value of the C type `int`. -/
def INT_MIN : Int := -2147483648

/-- The C library's `atoi`: the written integer when an `int` can hold it.
The C standard leaves the other case undefined; `narrow` is what the library
at hand returns then. -/
def atoi (narrow : Int → Int) (s : Line) : Int :=
  let v := strtolValue s
  if INT_MIN ≤ v ∧ v ≤ INT_MAX then v else narrow v

/-- What glibc's `atoi`, `(int) strtol(nptr, NULL, 10)`, returns on a 64-bit
Linux for a value out of range: `strtol` clamps to the range of `long`, the
cast keeps the low 32 bits. -/
def narrow_glibc64 (v : Int) : Int :=
  let l : Int := max (-9223372036854775808) (min 9223372036854775807 v)
  (l + 2147483648) % 4294967296 - 2147483648

/-- The `do ... while (n >= 0)` loop of `read_stats`: for a buffer with
`n > 0`, skip white space, `val = atoi(p)`, set `found`, echo under
`show_output`, and record `CU_TEST(val < 10000000)`. -/
def read_stats_loop (narrow : Int → Int) (show_output : Bool) (eof : Bool) :
    List Line → Bool → Bool × List Event
  | [], found => (found, [.getline (-1) eof])
  | buf :: rest, found =>
    let n : Int := buf.length
    if n > 0 then
      let p := buf.dropWhile isspace
      let val := atoi narrow p
      let r := read_stats_loop narrow show_output eof rest true
      (r.1, .getline n false ::
        ((if show_output then [.printf (cstr buf)] else []) ++
          .cuTest (decide (val < 10000000)) :: r.2))
    else
      let r := read_stats_loop narrow show_output eof rest found
      (r.1, .getline n false :: r.2)

/-- The function `read_stats(out, match, cmd, ...)` in the calling process;
`env` answers the calls about the filter process. -/
def read_stats (narrow : Int → Int) (show_output : Bool) (env : Env) : Run :=
  let p := pipe_it env
  let pid := p.ret
  if pid < 0 then ⟨-1, p.events⟩
  else
    let ofd := p.ofd.getD 0
    let efd := p.efd.getD 0
    if env.fdopenOk then
      let r := read_stats_loop narrow show_output env.readsToEOF env.lines false
      let found := r.1
      let ret := wait_for_exec pid env.wait
      let ret := if !found then -1 else ret
      ⟨if ret > 0 then 0 else ret,
        p.events ++ [.fdopen ofd true] ++ r.2 ++
          [.free, .waitpid pid env.wait.ret, .fclose ofd, .close ofd, .close efd]⟩
    else
      let found := false
      let ret := wait_for_exec pid env.wait
      let ret := if !found then -1 else ret
      ⟨if ret > 0 then 0 else ret,
        p.events ++
          [.fdopen ofd false, .waitpid pid env.wait.ret, .perror, .close ofd,
           .close efd]⟩

/-! ## Auxiliary notions used in the statements -/

/-- Number of `getline` calls that delivered a line (did not report end of
file). -/
def readCount (es : List Event) : Nat :=
  es.countP (fun e => match e with | .getline n _ => decide (0 ≤ n) | _ => false)

/-- Number of `getline` calls, whatever they returned. -/
def getlineCount (es : List Event) : Nat :=
  es.countP (fun e => match e with | .getline _ _ => true | _ => false)

/-- An environment in which every call succeeds and the filter's output is the
two lines "99999999 bytes in size\n" and "abc\n": the first is above the
ceiling of `read_stats`, the second does not start with a number. -/
def overCeilingEnv : Env :=
  ⟨some (3, 4), some (5, 6), some 100, true,
    [[57, 57, 57, 57, 57, 57, 57, 57, 32, 98, 121, 116, 101, 115, 32, 105, 110, 32,
      115, 105, 122, 101, 10],
     [97, 98, 99, 10]],
    ⟨100, 0⟩, true⟩

/-! ### What reaches the output pipe of the filter stage

In the child `pipe_it` creates, descriptors 1 and 2 are both the write end of
the output pipe (`dup2(obrass[1], STDOUT_FILENO)`,
`dup2(obrass[1], STDERR_FILENO)`). `printf` puts text on the buffered stream
`stdout`; `perror` writes to the unbuffered `stderr` at once. The child ends
with `execl` of a shell, which drops what `stdout` still holds, or, if both
`execl` calls fail, with `exit`, which flushes it. -/

/-- The text `perror("fp")` writes: "fp: ", the message for `errno`, a
newline. -/
def perrorText (strerror : Line) : Line := [102, 112, 58, 32] ++ strerror ++ [10]

/-- A buffering discipline of `stdout`: given the bytes the stream holds once a
`printf` has added its text, how many leading bytes are handed to `write`
before `printf` returns. -/
abbrev FlushPolicy := Line → Nat

/-- An unbuffered stream: everything is written at once. -/
def unbuffered : FlushPolicy := fun p => p.length

/-- A discipline under which a stream that ends with a newline is written out
entirely: unbuffered and line buffered streams. -/
def FlushesLines (policy : FlushPolicy) : Prop :=
  ∀ p : Line, p.getLast? = some 10 → p.length ≤ policy p

/-- The bytes sent down the output pipe so far, and the bytes `stdout` holds. -/
structure Stdio where
  sent : Line
  pending : Line
  deriving DecidableEq, Repr

/-- Effect of one call on the output pipe and on `stdout`'s buffer. A `printf`
of an empty text does nothing. -/
def Stdio.step (policy : FlushPolicy) (strerror : Line) (s : Stdio) : Event → Stdio
  | .printf text =>
    if text = [] then s
    else
      ⟨s.sent ++ (s.pending ++ text).take (policy (s.pending ++ text)),
        (s.pending ++ text).drop (policy (s.pending ++ text))⟩
  | .perror => ⟨s.sent ++ perrorText strerror, s.pending⟩
  | _ => s

/-- Effect of a sequence of calls, in order. -/
def Stdio.run (policy : FlushPolicy) (strerror : Line) (s : Stdio) (es : List Event) :
    Stdio :=
  es.foldl (Stdio.step policy strerror) s

/-- The descriptors `pipe` hands out are not open before the call and the two
ends differ, for the first pipe and, after it, for the second. -/
def PipesFresh (fds : Finset Fd) (env : Env) : Prop :=
  match env.pipe1 with
  | none => True
  | some (o0, o1) =>
    o0 ∉ fds ∧ o1 ∉ fds ∧ o0 ≠ o1 ∧
    match env.pipe2 with
    | none => True
    | some (e0, e1) =>
      e0 ∉ insert o1 (insert o0 fds) ∧ e1 ∉ insert o1 (insert o0 fds) ∧ e0 ≠ e1

/-- An environment in which every call succeeds: pipes 3/4 and 5/6, child pid
100, two lines "a\n" and "b\n", the child exiting with status 0. -/
def sampleEnv : Env :=
  ⟨some (3, 4), some (5, 6), some 100, true, [[97, 10], [98, 10]], ⟨100, 0⟩, true⟩

/-- The calls a reading loop makes before end of file: a `getline` that
delivered a line, a `printf`, a `CU_TEST`. -/
def isDrainCall : Event → Bool
  | .getline n _ => decide (0 ≤ n)
  | .printf _ => true
  | .cuTest _ => true
  | _ => false

/-- A reading loop's calls: calls of the kinds above, then the `getline` that
reports end of file. -/
def DrainShape (eof : Bool) (es : List Event) : Prop :=
  ∃ body, es = body ++ [.getline (-1) eof] ∧ ∀ e ∈ body, isDrainCall e = true

/-! ### Lines of the form the statistics report prints

These follow the wording of the specification ("each line begins with a
decimal integer followed by `bytes in size`"), independently of `atoi`. -/

/-- The decimal digits of `v` as ASCII bytes, most significant first. -/
def decimal (v : Nat) : Line :=
  if v = 0 then [48] else (Nat.digits 10 v).reverse.map (fun d => d + 48)

/-- The bytes of the text " bytes in size". -/
def bytesInSize : Line := [32, 98, 121, 116, 101, 115, 32, 105, 110, 32, 115, 105, 122, 101]

/-- A line made of white space, a decimal integer, " bytes in size" and any
remainder. -/
structure StatsLine where
  ws : Line
  value : Nat
  tail : Line

/-- The bytes of such a line. -/
def StatsLine.bytes (e : StatsLine) : Line :=
  e.ws ++ (decimal e.value ++ (bytesInSize ++ e.tail))

/-- The leading part is white space only. -/
def StatsLine.WellFormed (e : StatsLine) : Prop := ∀ c ∈ e.ws, isspace c = true

/-- Whether a C string starts with a digit. -/
def startsWithDigit : Line → Bool
  | [] => false
  | d :: _ => isdigit d

/-- Whether a line starts, after white space, with a number: a digit, or a
sign followed by a digit. -/
def leadsWithNumber (s : Line) : Bool :=
  match s.dropWhile isspace with
  | [] => false
  | c :: t => isdigit c || ((c == 45 || c == 43) && startsWithDigit t)

/-- An environment whose single line is "  5120000 bytes in size\n". -/
def statsEnv : Env :=
  { sampleEnv with lines := [StatsLine.bytes ⟨[32, 32], 5120000, [10]⟩] }

/-- The bytes of the line "2147483648 bytes in size\n". -/
def overflowLine : Line :=
  [50, 49, 52, 55, 52, 56, 51, 54, 52, 56,
   32, 98, 121, 116, 101, 115, 32, 105, 110, 32, 115, 105, 122, 101, 10]

/-! ## Lemmas on `wait_for_exec` and `pipe_it` -/

theorem wait_for_exec_cases (pid : Int) (r : WaitResult) :
    wait_for_exec pid r = 0 ∨ wait_for_exec pid r = -1 := by
  unfold wait_for_exec
  split
  · exact Or.inr rfl
  · split
    · exact Or.inr rfl
    · exact Or.inl rfl

theorem pipe_it_ret_cases (env : Env) :
    ((pipe_it env).ret = -1 ∧ (env.pipe1 = none ∨ env.pipe2 = none ∨ env.fork = none)) ∨
    (∃ o0 o1 e0 e1 pid, env.pipe1 = some (o0, o1) ∧ env.pipe2 = some (e0, e1) ∧
      env.fork = some pid ∧
      pipe_it env = ⟨(pid : Int), some o0, some e0,
        [.pipe o0 o1, .pipe e0 e1, .fork pid, .close o1, .close e1]⟩) := by
  unfold pipe_it
  rcases h1 : env.pipe1 with _ | ⟨o0, o1⟩
  · exact Or.inl ⟨rfl, Or.inl rfl⟩
  · rcases h2 : env.pipe2 with _ | ⟨e0, e1⟩
    · exact Or.inl ⟨rfl, Or.inr (Or.inl rfl)⟩
    · rcases h3 : env.fork with _ | pid
      · exact Or.inl ⟨rfl, Or.inr (Or.inr rfl)⟩
      · exact Or.inr ⟨o0, o1, e0, e1, pid, rfl, rfl, rfl, rfl⟩

theorem pipe_it_ret_neg_iff (env : Env) : (pipe_it env).ret < 0 ↔ (pipe_it env).ret = -1 := by
  rcases pipe_it_ret_cases env with ⟨h, _⟩ | ⟨o0, o1, e0, e1, pid, _, _, _, h⟩
  · simp [h]
  · rw [h]
    constructor
    · intro hlt
      have : (0 : Int) ≤ (pid : Int) := Int.ofNat_nonneg pid
      simp only at hlt
      omega
    · intro heq
      simp only at heq
      omega

/-! ## Lemmas on the reading loops -/

theorem grep_match_loop_found (show_output eof : Bool) (lines : List Line) (h : GetlineOk lines)
    (found : Bool) :
    (grep_match_loop show_output eof lines found).1 = (found || !lines.isEmpty) := by
  induction lines generalizing found with
  | nil => simp [grep_match_loop]
  | cons buf rest ih =>
    have hb : buf ≠ [] := h buf (List.mem_cons_self _ _)
    have hr : GetlineOk rest := fun l hl => h l (List.mem_cons_of_mem _ hl)
    have hn : (0 : Int) < (buf.length : Int) := by
      have := List.length_pos.mpr hb
      omega
    simp [grep_match_loop, hn, ih hr]

theorem grep_match_loop_readCount (show_output eof : Bool) (lines : List Line) (found : Bool) :
    readCount (grep_match_loop show_output eof lines found).2 = lines.length := by
  induction lines generalizing found with
  | nil => simp [grep_match_loop, readCount]
  | cons buf rest ih =>
    unfold readCount at ih
    by_cases hn : (0 : Int) < (buf.length : Int)
    · cases show_output <;> simp [grep_match_loop, hn, readCount, ih]
    · simp [grep_match_loop, hn, readCount, ih]

theorem read_stats_loop_found (narrow : Int → Int) (show_output eof : Bool) (lines : List Line)
    (h : GetlineOk lines) (found : Bool) :
    (read_stats_loop narrow show_output eof lines found).1 = (found || !lines.isEmpty) := by
  induction lines generalizing found with
  | nil => simp [read_stats_loop]
  | cons buf rest ih =>
    have hb : buf ≠ [] := h buf (List.mem_cons_self _ _)
    have hr : GetlineOk rest := fun l hl => h l (List.mem_cons_of_mem _ hl)
    have hn : (0 : Int) < (buf.length : Int) := by
      have := List.length_pos.mpr hb
      omega
    simp [read_stats_loop, hn, ih hr]

theorem read_stats_loop_readCount (narrow : Int → Int) (show_output eof : Bool)
    (lines : List Line) (found : Bool) :
    readCount (read_stats_loop narrow show_output eof lines found).2 = lines.length := by
  induction lines generalizing found with
  | nil => simp [read_stats_loop, readCount]
  | cons buf rest ih =>
    unfold readCount at ih
    by_cases hn : (0 : Int) < (buf.length : Int)
    · cases show_output <;> simp [read_stats_loop, hn, readCount, ih]
    · simp [read_stats_loop, hn, readCount, ih]

/-! ## Results of `grep_match` and `read_stats` -/

theorem grep_match_failed (show_output : Bool) (env : Env) (h : (pipe_it env).ret = -1) :
    grep_match show_output env = ⟨-1, (pipe_it env).events⟩ := by
  simp [grep_match, h]

theorem grep_match_ret_of_ok (show_output : Bool) (env : Env) (h : (pipe_it env).ret ≠ -1)
    (hl : GetlineOk env.lines) :
    (grep_match show_output env).ret =
      if env.fdopenOk && !env.lines.isEmpty then 0 else 1 := by
  have hneg : ¬ (pipe_it env).ret < 0 := fun hlt => h ((pipe_it_ret_neg_iff env).mp hlt)
  unfold grep_match
  simp only [hneg, if_false]
  cases hf : env.fdopenOk
  · simp
  · simp [grep_match_loop_found show_output env.readsToEOF env.lines hl]

theorem grep_match_readCount_of_ok (show_output : Bool) (env : Env)
    (h : (pipe_it env).ret ≠ -1) :
    readCount (grep_match show_output env).events =
      if env.fdopenOk then env.lines.length else 0 := by
  rcases pipe_it_ret_cases env with ⟨h', _⟩ | ⟨o0, o1, e0, e1, pid, _, _, _, hp⟩
  · exact absurd h' h
  · have hneg : ¬ ((pid : Int) < 0) := by
      have : (0 : Int) ≤ (pid : Int) := Int.ofNat_nonneg pid
      omega
    have hc := grep_match_loop_readCount show_output env.readsToEOF env.lines false
    unfold readCount at hc
    unfold grep_match
    rw [hp]
    cases hf : env.fdopenOk
    · simp [hneg, readCount]
    · simp [hneg, readCount, List.countP_append, hc]

theorem read_stats_ret_of_ok (narrow : Int → Int) (show_output : Bool) (env : Env)
    (h : (pipe_it env).ret ≠ -1) (hl : GetlineOk env.lines) :
    (read_stats narrow show_output env).ret =
      if env.fdopenOk && !env.lines.isEmpty then wait_for_exec (pipe_it env).ret env.wait
      else -1 := by
  have hneg : ¬ (pipe_it env).ret < 0 := fun hlt => h ((pipe_it_ret_neg_iff env).mp hlt)
  unfold read_stats
  simp only [hneg, if_false]
  cases hf : env.fdopenOk
  · simp
  · cases hempty : env.lines.isEmpty
    · rcases wait_for_exec_cases (pipe_it env).ret env.wait with hw | hw <;>
        simp [read_stats_loop_found narrow show_output env.readsToEOF env.lines hl, hempty, hw]
    · simp [read_stats_loop_found narrow show_output env.readsToEOF env.lines hl, hempty]

theorem read_stats_readCount_of_ok (narrow : Int → Int) (show_output : Bool) (env : Env)
    (h : (pipe_it env).ret ≠ -1) :
    readCount (read_stats narrow show_output env).events =
      if env.fdopenOk then env.lines.length else 0 := by
  rcases pipe_it_ret_cases env with ⟨h', _⟩ | ⟨o0, o1, e0, e1, pid, _, _, _, hp⟩
  · exact absurd h' h
  · have hneg : ¬ ((pid : Int) < 0) := by
      have : (0 : Int) ≤ (pid : Int) := Int.ofNat_nonneg pid
      omega
    have hc := read_stats_loop_readCount narrow show_output env.readsToEOF env.lines false
    unfold readCount at hc
    unfold read_stats
    rw [hp]
    cases hf : env.fdopenOk
    · simp [hneg, readCount]
    · simp [hneg, readCount, List.countP_append, hc]

/-! ## The claims -/

/-- C1 (defect in the code): `wait_for_exec` never tests `WIFEXITED`. For a child
killed by SIGKILL, `waitpid` returns the pid with status word 9, whose
`WEXITSTATUS` is 0, and `wait_for_exec` returns 0 (success) although the child
did not terminate normally; the same holds for every signal. For a child that
exited normally the result is as intended: 0 exactly when `waitpid` returned
the pid and the exit code is 0. -/
theorem wait_for_exec_signaled_reports_success :
    wait_for_exec 100 ⟨100, (Termination.signaled 9 false).status⟩ = 0 ∧
    WIFEXITED (Termination.signaled 9 false).status = false ∧
    (∀ (pid : Int) (sig : Nat) (core : Bool),
      wait_for_exec pid ⟨pid, (Termination.signaled sig core).status⟩ = 0) ∧
    (∀ (pid ret : Int) (code : Nat),
      wait_for_exec pid ⟨ret, (Termination.exited code).status⟩ = 0 ↔
        (ret = pid ∧ code % 256 = 0)) := by
  refine ⟨by decide, by decide, ?_, ?_⟩
  · intro pid sig core
    have hlt : sig % 128 + (if core then 128 else 0) < 256 := by
      have := Nat.mod_lt sig (show 0 < 128 by decide)
      cases core <;> simp <;> omega
    simp [wait_for_exec, WEXITSTATUS, Termination.status, Nat.div_eq_of_lt hlt]
  · intro pid ret code
    have hm : code % 256 * 256 / 256 % 256 = code % 256 := by
      rw [Nat.mul_div_cancel _ (by decide : 0 < 256), Nat.mod_mod]
    simp only [wait_for_exec, WEXITSTATUS, Termination.status, hm]
    by_cases h1 : ret = pid <;> by_cases h2 : code % 256 = 0 <;> simp [h1, h2]

/-- C3: `grep_match` returns -1 exactly when `pipe_it` fails. When `pipe_it`
succeeds, the number of lines it reads is the number of lines `getline`
delivers (none when `fdopen` fails), and it returns 0 exactly when at least
one line was read, that is when `fdopen` succeeded and the filter's output has
a line, and 1 when none was read. The result is the same whatever `waitpid`
reports for the filter process. -/
theorem grep_match_result (show_output : Bool) (env : Env) (hl : GetlineOk env.lines) :
    ((grep_match show_output env).ret = -1 ↔ (pipe_it env).ret = -1) ∧
    ((pipe_it env).ret ≠ -1 →
      readCount (grep_match show_output env).events =
        (if env.fdopenOk then env.lines.length else 0) ∧
      ((grep_match show_output env).ret = 0 ↔
        (env.fdopenOk = true ∧ env.lines ≠ [])) ∧
      ((grep_match show_output env).ret = 0 ↔
        0 < readCount (grep_match show_output env).events) ∧
      (readCount (grep_match show_output env).events = 0 →
        (grep_match show_output env).ret = 1)) ∧
    (∀ w : WaitResult,
      (grep_match show_output { env with wait := w }).ret =
        (grep_match show_output env).ret) := by
  refine ⟨?_, ?_, ?_⟩
  · constructor
    · intro h
      by_contra hp
      rw [grep_match_ret_of_ok show_output env hp hl] at h
      split at h <;> simp at h
    · intro h
      rw [grep_match_failed show_output env h]
  · intro hp
    refine ⟨grep_match_readCount_of_ok show_output env hp, ?_, ?_, ?_⟩
    · rw [grep_match_ret_of_ok show_output env hp hl]
      cases hf : env.fdopenOk
      · simp
      · cases hlines : env.lines with
        | nil => simp
        | cons a t => simp
    · rw [grep_match_ret_of_ok show_output env hp hl,
        grep_match_readCount_of_ok show_output env hp]
      cases hf : env.fdopenOk
      · simp
      · cases hlines : env.lines with
        | nil => simp
        | cons a t => simp
    · rw [grep_match_ret_of_ok show_output env hp hl,
        grep_match_readCount_of_ok show_output env hp]
      cases hf : env.fdopenOk
      · simp
      · cases hlines : env.lines with
        | nil => simp
        | cons a t => simp
  · intro w
    by_cases hp : (pipe_it env).ret = -1
    · have hp' : (pipe_it { env with wait := w }).ret = -1 := hp
      rw [grep_match_failed show_output env hp, grep_match_failed show_output _ hp']
    · have hp' : (pipe_it { env with wait := w }).ret ≠ -1 := hp
      rw [grep_match_ret_of_ok show_output env hp hl,
        grep_match_ret_of_ok show_output _ hp' hl]

/-- C3, instance: the filter's output has the two lines "a\n" and "b\n";
`grep_match` reads both and returns 0. -/
theorem grep_match_result_witness :
    (grep_match false sampleEnv).ret = 0 ∧
    readCount (grep_match false sampleEnv).events = 2 :=
  ⟨((grep_match_result false sampleEnv (by decide)).2.1 (by decide)).2.1.mpr
      ⟨rfl, by decide⟩,
    ((grep_match_result false sampleEnv (by decide)).2.1 (by decide)).1⟩

/-- C10: `read_stats` returns 0 exactly when `pipe_it` succeeded, at least one
line was read from the filter's output (`fdopen` succeeded and the output has
a line), and `wait_for_exec` reported success for the filter process; in every
other case it returns -1. The number of lines it reads is the number of lines
`getline` delivers (none when `fdopen` fails). The result does not depend on
what the lines contain nor on how `atoi` reads them: any other non-empty
stream of lines, under any `atoi`, gives the same result. -/
theorem read_stats_result (narrow : Int → Int) (show_output : Bool) (env : Env)
    (hl : GetlineOk env.lines) :
    ((read_stats narrow show_output env).ret = 0 ↔
      ((pipe_it env).ret ≠ -1 ∧ env.fdopenOk = true ∧ env.lines ≠ [] ∧
        wait_for_exec (pipe_it env).ret env.wait = 0)) ∧
    ((pipe_it env).ret ≠ -1 →
      readCount (read_stats narrow show_output env).events =
        (if env.fdopenOk then env.lines.length else 0)) ∧
    ((read_stats narrow show_output env).ret = 0 ↔
      ((pipe_it env).ret ≠ -1 ∧
        0 < readCount (read_stats narrow show_output env).events ∧
        wait_for_exec (pipe_it env).ret env.wait = 0)) ∧
    ((read_stats narrow show_output env).ret ≠ 0 →
      (read_stats narrow show_output env).ret = -1) ∧
    (∀ (narrow' : Int → Int) (lines' : List Line), GetlineOk lines' →
      (lines' = [] ↔ env.lines = []) →
      (read_stats narrow' show_output { env with lines := lines' }).ret =
        (read_stats narrow show_output env).ret) := by
  have key : ∀ (nw : Int → Int) (e : Env), GetlineOk e.lines →
      (read_stats nw show_output e).ret =
        if (pipe_it e).ret ≠ -1 ∧ e.fdopenOk = true ∧ e.lines ≠ [] then
          wait_for_exec (pipe_it e).ret e.wait
        else -1 := by
    intro nw e he
    by_cases hp : (pipe_it e).ret = -1
    · simp [read_stats, hp]
    · rw [read_stats_ret_of_ok nw show_output e hp he]
      cases hf : e.fdopenOk
      · simp
      · cases hlines : e.lines with
        | nil => simp
        | cons a t => simp [hp]
  refine ⟨?_, ?_, ?_, ?_, ?_⟩
  · rw [key narrow env hl]
    by_cases hp : (pipe_it env).ret = -1
    · simp [hp]
    · cases hf : env.fdopenOk
      · simp
      · cases hlines : env.lines with
        | nil => simp
        | cons a t => simp [hp]
  · intro hp
    exact read_stats_readCount_of_ok narrow show_output env hp
  · rw [key narrow env hl]
    by_cases hp : (pipe_it env).ret = -1
    · simp [hp]
    · rw [read_stats_readCount_of_ok narrow show_output env hp]
      cases hf : env.fdopenOk
      · simp
      · cases hlines : env.lines with
        | nil => simp
        | cons a t => simp [hp]
  · rw [key narrow env hl]
    intro h
    split at h
    · rcases wait_for_exec_cases (pipe_it env).ret env.wait with hw | hw
      · exact absurd hw h
      · simp [*]
    · simp [*]
  · intro narrow' lines' hl' hiff
    rw [key narrow env hl, key narrow' { env with lines := lines' } hl']
    have hp : (pipe_it { env with lines := lines' }) = pipe_it env := rfl
    simp only [hp]
    by_cases hlines : env.lines = []
    · simp [hlines, hiff.mpr hlines]
    · have : lines' ≠ [] := fun h => hlines (hiff.mp h)
      simp [hlines, this]

/-- C10, instance: the filter exits with status 0 after the lines
"99999999 bytes in size\n" (above the ceiling, its check fails) and "abc\n"
(no number, read as 0); `read_stats` reads both and still returns 0. -/
theorem read_stats_result_witness :
    (read_stats narrow_glibc64 false overCeilingEnv).ret = 0 ∧
    readCount (read_stats narrow_glibc64 false overCeilingEnv).events = 2 ∧
    checks (read_stats narrow_glibc64 false overCeilingEnv).events = [false, true] :=
  ⟨(read_stats_result narrow_glibc64 false overCeilingEnv (by decide)).1.mpr
      ⟨by decide, rfl, by decide, by decide⟩,
    (read_stats_result narrow_glibc64 false overCeilingEnv (by decide)).2.1 (by decide),
    by decide⟩

/-- C6: when `pipe_it` fails (first `pipe` fails, second `pipe` fails after the
first succeeded, or `fork` fails after both succeeded) it returns -1, the set
of open descriptors and the set of children are what they were before the
call, nothing is stored through `ofd` or `efd`, no child was created and no
`waitpid` was made. -/
theorem pipe_it_failure (env : Env) (k : Kernel) (hfresh : PipesFresh k.openFds env)
    (hfail : env.pipe1 = none ∨ env.pipe2 = none ∨ env.fork = none) :
    (pipe_it env).ret = -1 ∧
    (Kernel.run k (pipe_it env).events).openFds = k.openFds ∧
    (Kernel.run k (pipe_it env).events).children = k.children ∧
    (pipe_it env).ofd = none ∧ (pipe_it env).efd = none ∧
    forkCount (pipe_it env).events = 0 ∧
    waitCount (pipe_it env).events = 0 := by
  unfold PipesFresh at hfresh
  unfold pipe_it
  rcases h1 : env.pipe1 with _ | ⟨o0, o1⟩
  · simp [Kernel.run, Kernel.step, forkCount, waitCount]
  · rw [h1] at hfresh
    obtain ⟨ho0, ho1, hne, hfresh2⟩ := hfresh
    rcases h2 : env.pipe2 with _ | ⟨e0, e1⟩
    · refine ⟨rfl, ?_, rfl, rfl, rfl, by simp [forkCount], by simp [waitCount]⟩
      simp only [Kernel.run, List.foldl, Kernel.step]
      rw [Finset.erase_insert_of_ne (Ne.symm hne), Finset.erase_insert ho0,
        Finset.erase_insert ho1]
    · rw [h2] at hfresh2
      obtain ⟨he0, he1, hne2⟩ := hfresh2
      rcases h3 : env.fork with _ | pid
      · refine ⟨rfl, ?_, rfl, rfl, rfl, by simp [forkCount], by simp [waitCount]⟩
        simp only [Kernel.run, List.foldl, Kernel.step]
        rw [Finset.erase_insert_of_ne (Ne.symm hne2), Finset.erase_insert he0,
          Finset.erase_insert he1, Finset.erase_insert_of_ne (Ne.symm hne),
          Finset.erase_insert ho0, Finset.erase_insert ho1]
      · rcases hfail with h | h | h
        · rw [h1] at h; exact absurd h (by simp)
        · rw [h2] at h; exact absurd h (by simp)
        · rw [h3] at h; exact absurd h (by simp)

/-- C6, instance: descriptors 0, 1, 2 open, pipes 3/4 and 5/6 created, `fork`
fails: the four new descriptors are closed again. -/
theorem pipe_it_failure_witness :
    (Kernel.run ⟨{0, 1, 2}, ∅⟩
      (pipe_it { sampleEnv with fork := none }).events).openFds = {0, 1, 2} :=
  (pipe_it_failure { sampleEnv with fork := none } ⟨{0, 1, 2}, ∅⟩
    (by simp [PipesFresh, sampleEnv]) (Or.inr (Or.inr rfl))).2.1

/-! ## Order of the drain and the wait -/

theorem DrainShape.cons {eof : Bool} {e : Event} {es : List Event}
    (he : isDrainCall e = true) (h : DrainShape eof es) : DrainShape eof (e :: es) := by
  obtain ⟨body, hb, hall⟩ := h
  refine ⟨e :: body, by simp [hb], ?_⟩
  intro x hx
  rcases List.mem_cons.mp hx with rfl | hx
  · exact he
  · exact hall x hx

theorem DrainShape.eof (eof : Bool) : DrainShape eof [.getline (-1) eof] :=
  ⟨[], rfl, by simp⟩

theorem do_grep_it_loop_shape (reg : Line → Bool) (eof : Bool) (lines : List Line) :
    DrainShape eof (do_grep_it_loop reg eof lines) := by
  induction lines with
  | nil => exact DrainShape.eof eof
  | cons buf t ih =>
    simp only [do_grep_it_loop]
    split
    · exact DrainShape.cons (by simp [isDrainCall]) (DrainShape.cons rfl ih)
    · exact DrainShape.cons (by simp [isDrainCall]) ih

theorem grep_match_loop_shape (show_output eof : Bool) (lines : List Line)
    (found : Bool) : DrainShape eof (grep_match_loop show_output eof lines found).2 := by
  induction lines generalizing found with
  | nil => exact DrainShape.eof eof
  | cons buf t ih =>
    simp only [grep_match_loop]
    split
    · cases show_output
      · exact DrainShape.cons (by simp [isDrainCall]) (ih true)
      · exact DrainShape.cons (by simp [isDrainCall]) (DrainShape.cons rfl (ih true))
    · exact DrainShape.cons (by simp [isDrainCall]) (ih found)

theorem read_stats_loop_shape (narrow : Int → Int) (show_output eof : Bool)
    (lines : List Line) (found : Bool) :
    DrainShape eof (read_stats_loop narrow show_output eof lines found).2 := by
  induction lines generalizing found with
  | nil => exact DrainShape.eof eof
  | cons buf t ih =>
    simp only [read_stats_loop]
    split
    · cases show_output
      · exact DrainShape.cons (by simp [isDrainCall]) (DrainShape.cons rfl (ih true))
      · exact DrainShape.cons (by simp [isDrainCall])
          (DrainShape.cons rfl (DrainShape.cons rfl (ih true)))
    · exact DrainShape.cons (by simp [isDrainCall]) (ih found)

theorem waitsAfterEOF_body (eof : Bool) (body : List Event)
    (h : ∀ e ∈ body, isDrainCall e = true) (seen : Bool) (rest : List Event) :
    waitsAfterEOF seen (body ++ .getline (-1) eof :: rest) =
      waitsAfterEOF (seen || eof) rest := by
  induction body generalizing seen with
  | nil => simp [waitsAfterEOF]
  | cons e t ih =>
    have he := h e (List.mem_cons_self _ _)
    have ih' := fun b => ih (fun x hx => h x (List.mem_cons_of_mem _ hx)) b
    cases e with
    | getline n f =>
      have hn : ¬ n < 0 := by
        have : 0 ≤ n := by simpa [isDrainCall] using he
        omega
      simp only [List.cons_append, waitsAfterEOF, hn, decide_False, Bool.false_and,
        Bool.or_false]
      exact ih' seen
    | printf text =>
      simp only [List.cons_append, waitsAfterEOF]
      exact ih' seen
    | cuTest passed =>
      simp only [List.cons_append, waitsAfterEOF]
      exact ih' seen
    | _ => simp [isDrainCall] at he

theorem waitsAfterEOF_drain {eof : Bool} {es : List Event} (h : DrainShape eof es)
    (seen : Bool) (rest : List Event) :
    waitsAfterEOF seen (es ++ rest) = waitsAfterEOF (seen || eof) rest := by
  obtain ⟨body, hb, hall⟩ := h
  rw [hb, List.append_assoc]
  exact waitsAfterEOF_body eof body hall seen rest

theorem waitCount_drain {eof : Bool} {es : List Event} (h : DrainShape eof es) :
    waitCount es = 0 := by
  obtain ⟨body, hb, hall⟩ := h
  rw [hb]
  unfold waitCount
  rw [List.countP_append]
  have : List.countP (fun e => match e with | .waitpid _ _ => true | _ => false) body = 0 := by
    rw [List.countP_eq_zero]
    intro e he
    have := hall e he
    cases e <;> simp_all [isDrainCall]
  simp [this]

theorem do_grep_it_loop_getlineCount (reg : Line → Bool) (eof : Bool) (lines : List Line) :
    getlineCount (do_grep_it_loop reg eof lines) = lines.length + 1 := by
  induction lines with
  | nil => simp [do_grep_it_loop, getlineCount]
  | cons buf t ih =>
    unfold getlineCount at ih
    simp only [do_grep_it_loop]
    split <;> simp [getlineCount, ih]

theorem grep_match_loop_getlineCount (show_output eof : Bool) (lines : List Line)
    (found : Bool) :
    getlineCount (grep_match_loop show_output eof lines found).2 = lines.length + 1 := by
  induction lines generalizing found with
  | nil => simp [grep_match_loop, getlineCount]
  | cons buf t ih =>
    unfold getlineCount at ih
    simp only [grep_match_loop]
    split
    · cases show_output <;> simp [getlineCount, ih]
    · simp [getlineCount, ih]

theorem read_stats_loop_getlineCount (narrow : Int → Int) (show_output eof : Bool)
    (lines : List Line) (found : Bool) :
    getlineCount (read_stats_loop narrow show_output eof lines found).2 =
      lines.length + 1 := by
  induction lines generalizing found with
  | nil => simp [read_stats_loop, getlineCount]
  | cons buf t ih =>
    unfold getlineCount at ih
    simp only [read_stats_loop]
    split
    · cases show_output <;> simp [getlineCount, ih]
    · simp [getlineCount, ih]

theorem grep_match_wait_order (show_output : Bool) (env : Env)
    (hp : (pipe_it env).ret ≠ -1) :
    waitCount (grep_match show_output env).events = 1 ∧
    waitsAfterEOF false (grep_match show_output env).events =
      (env.fdopenOk && env.readsToEOF) ∧
    getlineCount (grep_match show_output env).events =
      (if env.fdopenOk then env.lines.length + 1 else 0) := by
  rcases pipe_it_ret_cases env with ⟨h', _⟩ | ⟨o0, o1, e0, e1, pid, _, _, _, h⟩
  · exact absurd h' hp
  · have hneg : ¬ ((pid : Int) < 0) := by
      have : (0 : Int) ≤ (pid : Int) := Int.ofNat_nonneg pid
      omega
    have hs := grep_match_loop_shape show_output env.readsToEOF env.lines false
    have hw := waitCount_drain hs
    have hg := grep_match_loop_getlineCount show_output env.readsToEOF env.lines false
    unfold waitCount at hw
    unfold getlineCount at hg
    unfold grep_match
    rw [h]
    cases hf : env.fdopenOk
    · simp [hneg, waitCount, waitsAfterEOF, getlineCount]
    · refine ⟨?_, ?_, ?_⟩
      · simp [hneg, waitCount, List.countP_append, hw]
      · simp [hneg, waitsAfterEOF]
        rw [waitsAfterEOF_drain hs]
        cases env.readsToEOF <;> simp [waitsAfterEOF]
      · simp [hneg, getlineCount, List.countP_append, hg]

theorem read_stats_wait_order (narrow : Int → Int) (show_output : Bool) (env : Env)
    (hp : (pipe_it env).ret ≠ -1) :
    waitCount (read_stats narrow show_output env).events = 1 ∧
    waitsAfterEOF false (read_stats narrow show_output env).events =
      (env.fdopenOk && env.readsToEOF) ∧
    getlineCount (read_stats narrow show_output env).events =
      (if env.fdopenOk then env.lines.length + 1 else 0) := by
  rcases pipe_it_ret_cases env with ⟨h', _⟩ | ⟨o0, o1, e0, e1, pid, _, _, _, h⟩
  · exact absurd h' hp
  · have hneg : ¬ ((pid : Int) < 0) := by
      have : (0 : Int) ≤ (pid : Int) := Int.ofNat_nonneg pid
      omega
    have hs := read_stats_loop_shape narrow show_output env.readsToEOF env.lines false
    have hw := waitCount_drain hs
    have hg := read_stats_loop_getlineCount narrow show_output env.readsToEOF env.lines false
    unfold waitCount at hw
    unfold getlineCount at hg
    unfold read_stats
    rw [h]
    cases hf : env.fdopenOk
    · simp [hneg, waitCount, waitsAfterEOF, getlineCount]
    · refine ⟨?_, ?_, ?_⟩
      · simp [hneg, waitCount, List.countP_append, hw]
      · simp [hneg, waitsAfterEOF]
        rw [waitsAfterEOF_drain hs]
        cases env.readsToEOF <;> simp [waitsAfterEOF]
      · simp [hneg, getlineCount, List.countP_append, hg]

theorem do_grep_it_wait_order (reg : Line → Bool) (env : Env)
    (hp : (pipe_it env).ret ≠ -1) :
    waitCount (do_grep_it (some reg) env).events = 1 ∧
    waitsAfterEOF false (do_grep_it (some reg) env).events =
      (env.fdopenOk && env.readsToEOF) ∧
    getlineCount (do_grep_it (some reg) env).events =
      (if env.fdopenOk then env.lines.length + 1 else 0) := by
  rcases pipe_it_ret_cases env with ⟨h', _⟩ | ⟨o0, o1, e0, e1, pid, _, _, _, h⟩
  · exact absurd h' hp
  · have hneg : ¬ ((pid : Int) < 0) := by
      have : (0 : Int) ≤ (pid : Int) := Int.ofNat_nonneg pid
      omega
    have hs := do_grep_it_loop_shape reg env.readsToEOF env.lines
    have hw := waitCount_drain hs
    have hg := do_grep_it_loop_getlineCount reg env.readsToEOF env.lines
    unfold waitCount at hw
    unfold getlineCount at hg
    unfold do_grep_it
    rw [h]
    cases hf : env.fdopenOk
    · simp [hneg, waitCount, waitsAfterEOF, getlineCount]
    · refine ⟨?_, ?_, ?_⟩
      · simp [hneg, waitCount, List.countP_append, hw]
      · simp [hneg, waitsAfterEOF]
        rw [waitsAfterEOF_drain hs]
        cases env.readsToEOF <;> simp [waitsAfterEOF]
      · simp [hneg, getlineCount, List.countP_append, hg]

/-- C7, as corrected: in every run of `grep_match`, `read_stats` and
`do_grep_it` in which `pipe_it` succeeded, `waitpid` is called exactly once. It
comes after a `getline` that found the stream at end of file exactly when
`fdopen` succeeded and `getline` did not fail before the end. When `fdopen`
fails no `getline` is made at all before the wait; when it succeeds, one
`getline` per line delivered and one more, the one that returns -1 and ends
the loop, whether it met the end of the stream or failed. -/
theorem wait_follows_drain_iff_fdopen (narrow : Int → Int) (show_output : Bool)
    (reg : Line → Bool) (env : Env) (hp : (pipe_it env).ret ≠ -1) :
    (waitCount (grep_match show_output env).events = 1 ∧
      waitsAfterEOF false (grep_match show_output env).events =
        (env.fdopenOk && env.readsToEOF) ∧
      getlineCount (grep_match show_output env).events =
        (if env.fdopenOk then env.lines.length + 1 else 0)) ∧
    (waitCount (read_stats narrow show_output env).events = 1 ∧
      waitsAfterEOF false (read_stats narrow show_output env).events =
        (env.fdopenOk && env.readsToEOF) ∧
      getlineCount (read_stats narrow show_output env).events =
        (if env.fdopenOk then env.lines.length + 1 else 0)) ∧
    (waitCount (do_grep_it (some reg) env).events = 1 ∧
      waitsAfterEOF false (do_grep_it (some reg) env).events =
        (env.fdopenOk && env.readsToEOF) ∧
      getlineCount (do_grep_it (some reg) env).events =
        (if env.fdopenOk then env.lines.length + 1 else 0)) :=
  ⟨grep_match_wait_order show_output env hp,
    read_stats_wait_order narrow show_output env hp,
    do_grep_it_wait_order reg env hp⟩

/-- C7, instance: with `fdopen` succeeding and `getline` reaching the end of
the stream, `grep_match` waits after end of file. -/
theorem wait_follows_drain_iff_fdopen_witness :
    waitsAfterEOF false (grep_match false sampleEnv).events = true :=
  (wait_follows_drain_iff_fdopen narrow_glibc64 false (fun _ => true) sampleEnv
    (by decide)).1.2.1

/-- C7 as stated fails on two inputs. With `pipe_it` succeeding and `fdopen`
failing, each of the three functions calls `waitpid` although no `getline` was
ever made. With `fdopen` succeeding and the third `getline` failing before the
end of the stream, each of them calls `waitpid` with the pipe not read to its
end. -/
theorem wait_without_drain_when_fdopen_fails :
    ((pipe_it { sampleEnv with fdopenOk := false }).ret ≠ -1 ∧
    (grep_match false { sampleEnv with fdopenOk := false }).events =
      [.pipe 3 4, .pipe 5 6, .fork 100, .close 4, .close 6, .fdopen 3 false,
       .waitpid 100 100, .perror, .close 3, .close 5] ∧
    waitsAfterEOF false (grep_match false { sampleEnv with fdopenOk := false }).events
      = false ∧
    waitsAfterEOF false
      (read_stats narrow_glibc64 false { sampleEnv with fdopenOk := false }).events
      = false ∧
    waitsAfterEOF false
      (do_grep_it (some (fun _ => true)) { sampleEnv with fdopenOk := false }).events
      = false) ∧
    ((grep_match false { sampleEnv with readsToEOF := false }).events =
      [.pipe 3 4, .pipe 5 6, .fork 100, .close 4, .close 6, .fdopen 3 true,
       .getline 2 false, .getline 2 false, .getline (-1) false,
       .free, .waitpid 100 100, .fclose 3, .close 5] ∧
    waitsAfterEOF false (grep_match false { sampleEnv with readsToEOF := false }).events
      = false ∧
    waitsAfterEOF false
      (read_stats narrow_glibc64 false { sampleEnv with readsToEOF := false }).events
      = false ∧
    waitsAfterEOF false
      (do_grep_it (some (fun _ => true)) { sampleEnv with readsToEOF := false }).events
      = false) := by
  refine ⟨⟨by decide, by decide, by decide, by decide, by decide⟩,
    ⟨by decide, by decide, by decide, by decide⟩⟩

/-- C8 (defect in the code): with `pipe_it` and `fdopen` succeeding (read ends 3
and 5), `read_stats` and `do_grep_it` call `fclose(fp)` and then `close(ofd)`,
so descriptor 3 is released twice, the second time when it is no longer open;
`grep_match`, which calls `close(ofd)` only when `fdopen` failed, releases it
once. The stderr end 5 is released once by all three. -/
theorem read_stats_and_do_grep_it_close_ofd_twice :
    (pipe_it sampleEnv).ofd = some 3 ∧ (pipe_it sampleEnv).efd = some 5 ∧
    closeCount 3 (read_stats narrow_glibc64 false sampleEnv).events = 2 ∧
    closeCount 3 (do_grep_it (some (fun _ => true)) sampleEnv).events = 2 ∧
    closeCount 3 (grep_match false sampleEnv).events = 1 ∧
    closeCount 5 (read_stats narrow_glibc64 false sampleEnv).events = 1 ∧
    closeCount 5 (do_grep_it (some (fun _ => true)) sampleEnv).events = 1 ∧
    closeCount 5 (grep_match false sampleEnv).events = 1 ∧
    (read_stats narrow_glibc64 false sampleEnv).events.drop 11 =
      [.free, .waitpid 100 100, .fclose 3, .close 3, .close 5] ∧
    (do_grep_it (some (fun _ => true)) sampleEnv).events.drop 11 =
      [.free, .waitpid 100 100, .fclose 3, .close 3, .close 5, .regfree] ∧
    3 ∉ (Kernel.run ⟨{0, 1, 2}, ∅⟩
      ((read_stats narrow_glibc64 false sampleEnv).events.take 14)).openFds := by
  refine ⟨by decide, by decide, by decide, by decide, by decide, by decide, by decide,
    by decide, by decide, by decide, by decide⟩

/-- C9, as corrected: when the pattern compiles, the inner `pipe_it` succeeds
and the inner process exits normally with code `c` in 0..255, the status the
filter-stage child computes (formatted into `exit %d` and passed to the
fallback `exit`) is 0 when `c = 0` and -1 for every other `c`. -/
theorem filter_child_status (reg : Line → Bool) (env : Env) (c : Nat) (hc : c ≤ 255)
    (hp : (pipe_it env).ret ≠ -1)
    (hw : env.wait = ⟨(pipe_it env).ret, (Termination.exited c).status⟩) :
    pipe_it_child true true (fun _ => (do_grep_it (some reg) env).ret) =
      .shell ("exit " ++ toString (if c = 0 then (0 : Int) else -1))
        (if c = 0 then 0 else -1) := by
  have hneg : ¬ (pipe_it env).ret < 0 := fun hlt => hp ((pipe_it_ret_neg_iff env).mp hlt)
  have hwait : wait_for_exec (pipe_it env).ret env.wait = if c = 0 then 0 else -1 := by
    rw [hw]
    have hmod : c % 256 = c := Nat.mod_eq_of_lt (by omega)
    simp only [wait_for_exec, WEXITSTATUS, Termination.status, hmod]
    rw [Nat.mul_div_cancel c (by decide : 0 < 256), hmod]
    by_cases h0 : c = 0 <;> simp [h0]
  have hret : (do_grep_it (some reg) env).ret = if c = 0 then 0 else -1 := by
    unfold do_grep_it
    simp only [hneg, if_false]
    cases hf : env.fdopenOk <;> by_cases h0 : c = 0 <;> simp [hwait, h0]
  simp only [pipe_it_child, hret]
  rfl

/-- C9, instance: inner exit code 0 gives `exit 0`. -/
theorem filter_child_status_witness :
    pipe_it_child true true (fun _ => (do_grep_it (some (fun _ => true)) sampleEnv).ret) =
      .shell "exit 0" 0 :=
  filter_child_status (fun _ => true) sampleEnv 0 (by decide) (by decide) rfl

/-- C9 as stated fails: the inner process exits normally with code 3, and the
filter-stage child computes -1, not 3. -/
theorem filter_child_status_not_preserved :
    (do_grep_it (some (fun _ => true))
      { sampleEnv with wait := ⟨100, (Termination.exited 3).status⟩ }).ret = -1 ∧
    pipe_it_child true true (fun _ => (do_grep_it (some (fun _ => true))
      { sampleEnv with wait := ⟨100, (Termination.exited 3).status⟩ }).ret) ≠
      .shell "exit 3" 3 := by
  refine ⟨by decide, ?_⟩
  have h : (do_grep_it (some (fun _ => true))
      { sampleEnv with wait := ⟨100, (Termination.exited 3).status⟩ }).ret = -1 := by decide
  simp [pipe_it_child, h]

/-! ## `get_args` -/

theorem get_args_loop_ok (allocOk : Nat → Bool) (ps : List String)
    (rest : List (Option String)) (k : Nat) (argv : List String)
    (h : ∀ j, j < ps.length → allocOk (k + j) = true) :
    get_args_loop allocOk k argv (ps.map some ++ none :: rest) = .argv (argv ++ ps) := by
  induction ps generalizing k argv with
  | nil => simp [get_args_loop]
  | cons p t ih =>
    have h0 : allocOk k = true := by simpa using h 0 (by simp)
    have ht : ∀ j, j < t.length → allocOk (k + 1 + j) = true := by
      intro j hj
      have := h (j + 1) (by simp; omega)
      rwa [show k + (j + 1) = k + 1 + j by omega] at this
    simp [get_args_loop, tracefs_list_add, h0, ih (k + 1) (argv ++ [p]) ht]

theorem get_args_loop_fail (allocOk : Nat → Bool) (ps : List String)
    (rest : List (Option String)) (k : Nat) (argv : List String) (i : Nat)
    (hi : i < ps.length) (hfail : allocOk (k + i) = false)
    (hok : ∀ j, j < i → allocOk (k + j) = true) :
    get_args_loop allocOk k argv (ps.map some ++ none :: rest) =
      .null (some (argv ++ ps.take i)) := by
  induction ps generalizing k argv i with
  | nil => simp at hi
  | cons p t ih =>
    cases i with
    | zero =>
      have h0 : allocOk k = false := by simpa using hfail
      simp [get_args_loop, tracefs_list_add, h0]
    | succ i =>
      have h0 : allocOk k = true := by simpa using hok 0 (by omega)
      have hi' : i < t.length := by simpa using hi
      have hfail' : allocOk (k + 1 + i) = false := by
        rwa [show k + (i + 1) = k + 1 + i by omega] at hfail
      have hok' : ∀ j, j < i → allocOk (k + 1 + j) = true := by
        intro j hj
        have := hok (j + 1) (by omega)
        rwa [show k + (j + 1) = k + 1 + j by omega] at this
      simp [get_args_loop, tracefs_list_add, h0, ih (k + 1) (argv ++ [p]) i hi' hfail' hok']

theorem get_args_first_failure (tracecmd_exec cmd : String) (ps : List String)
    (rest : List (Option String)) (allocOk : Nat → Bool) (k : Nat)
    (hk : k < ps.length + 2) (hfail : allocOk k = false)
    (hok : ∀ j, j < k → allocOk j = true) :
    get_args tracecmd_exec allocOk cmd (ps.map some ++ none :: rest) =
      .null (if k = 0 then none else some ((tracecmd_exec :: cmd :: ps).take k)) := by
  match k, hk, hfail, hok with
  | 0, _, hfail, _ => simp [get_args, tracefs_list_add, hfail]
  | 1, _, hfail, hok =>
    have h0 := hok 0 (by omega)
    simp [get_args, tracefs_list_add, hfail, h0]
  | i + 2, hk, hfail, hok =>
    have h0 := hok 0 (by omega)
    have h1 := hok 1 (by omega)
    have hi : i < ps.length := by omega
    have hfail' : allocOk (2 + i) = false := by rwa [show 2 + i = i + 2 by omega]
    have hok' : ∀ j, j < i → allocOk (2 + j) = true := fun j hj => hok (2 + j) (by omega)
    simp [get_args, tracefs_list_add, h0, h1,
      get_args_loop_fail allocOk ps rest 2 [tracecmd_exec, cmd] i hi hfail' hok']

/-- C5: for a verb `cmd` and parameters `p1..pn` followed by the NULL sentinel
(whatever comes after it), `get_args` returns `[tracecmd_exec, cmd, p1, ..., pn]`
(length `n + 2`, not empty, first element the program path) when the `n + 2`
list allocations succeed. When allocation number `k` is the first to fail it
returns NULL, after freeing the first `k` elements built so far (nothing to
free for `k = 0`); and then `run_trace` returns -1 without calling `fork` and
`do_grep` exits without calling `execvp`. -/
theorem get_args_spec (tracecmd_exec cmd : String) (ps : List String)
    (rest : List (Option String)) (allocOk : Nat → Bool) :
    ((∀ k, k < ps.length + 2 → allocOk k = true) →
      get_args tracecmd_exec allocOk cmd (ps.map some ++ none :: rest) =
        .argv ([tracecmd_exec, cmd] ++ ps) ∧
      ([tracecmd_exec, cmd] ++ ps).length = ps.length + 2 ∧
      ([tracecmd_exec, cmd] ++ ps) ≠ [] ∧
      ([tracecmd_exec, cmd] ++ ps).head? = some tracecmd_exec) ∧
    (∀ k, k < ps.length + 2 → allocOk k = false → (∀ j, j < k → allocOk j = true) →
      get_args tracecmd_exec allocOk cmd (ps.map some ++ none :: rest) =
        .null (if k = 0 then none else some ((tracecmd_exec :: cmd :: ps).take k))) ∧
    ((∃ k, k < ps.length + 2 ∧ allocOk k = false) →
      (∃ freed, get_args tracecmd_exec allocOk cmd (ps.map some ++ none :: rest) =
        .null freed) ∧
      (∀ fork wait, run_trace tracecmd_exec allocOk cmd (ps.map some ++ none :: rest)
        fork wait = some ⟨-1, []⟩) ∧
      (∀ execvpOk, do_grep tracecmd_exec allocOk cmd (ps.map some ++ none :: rest)
        execvpOk = .exit (-1))) := by
  refine ⟨?_, ?_, ?_⟩
  · intro h
    refine ⟨?_, by simp, by simp, by simp⟩
    have h0 := h 0 (by omega)
    have h1 := h 1 (by omega)
    have hl : ∀ j, j < ps.length → allocOk (2 + j) = true := fun j hj => h (2 + j) (by omega)
    simp [get_args, tracefs_list_add, h0, h1,
      get_args_loop_ok allocOk ps rest 2 [tracecmd_exec, cmd] hl]
  · intro k hk hfail hok
    exact get_args_first_failure tracecmd_exec cmd ps rest allocOk k hk hfail hok
  · intro hex
    have hex' : ∃ k, k < ps.length + 2 ∧ allocOk k = false := hex
    have hmin := Nat.find_spec hex'
    have hlt : ∀ j, j < Nat.find hex' → allocOk j = true := by
      intro j hj
      have hnot := Nat.find_min hex' hj
      have hjlt : j < ps.length + 2 := lt_trans hj hmin.1
      cases hv : allocOk j
      · exact absurd ⟨hjlt, hv⟩ hnot
      · rfl
    have hg := get_args_first_failure tracecmd_exec cmd ps rest allocOk (Nat.find hex')
      hmin.1 hmin.2 hlt
    refine ⟨⟨_, hg⟩, ?_, ?_⟩
    · intro fork wait
      simp [run_trace, hg]
    · intro execvpOk
      simp [do_grep, hg]

/-- C5, instances: `grep_match`-style call `("stat", "-a", NULL)` with every
allocation succeeding, and with the third allocation failing. -/
theorem get_args_spec_witness :
    (get_args "trace-cmd" (fun _ => true) "stat" (["-a"].map some ++ none :: []) =
      .argv (["trace-cmd", "stat"] ++ ["-a"])) ∧
    (get_args "trace-cmd" (fun k => k != 2) "stat" (["-a"].map some ++ none :: []) =
      .null (if 2 = 0 then none else some (("trace-cmd" :: "stat" :: ["-a"]).take 2))) ∧
    (∀ fork wait, run_trace "trace-cmd" (fun k => k != 2) "stat"
      (["-a"].map some ++ none :: []) fork wait = some ⟨-1, []⟩) :=
  ⟨((get_args_spec "trace-cmd" "stat" ["-a"] [] (fun _ => true)).1 (fun _ _ => rfl)).1,
    (get_args_spec "trace-cmd" "stat" ["-a"] [] (fun k => k != 2)).2.1 2 (by decide) rfl
      (by intro j hj; interval_cases j <;> rfl),
    ((get_args_spec "trace-cmd" "stat" ["-a"] [] (fun k => k != 2)).2.2
      ⟨2, by decide, rfl⟩).2.1⟩

/-! ## Output of the filter stage -/

theorem Stdio.run_append (policy : FlushPolicy) (strerror : Line) (s : Stdio)
    (a b : List Event) :
    Stdio.run policy strerror s (a ++ b) =
      Stdio.run policy strerror (Stdio.run policy strerror s a) b := by
  simp [Stdio.run, List.foldl_append]

theorem flushesLines_unbuffered : FlushesLines unbuffered := by
  intro p _
  exact le_refl _

theorem digitsValue_append_single (l : List Nat) (c : Nat) :
    digitsValue (l ++ [c]) = 10 * digitsValue l + (c - 48) := by
  simp [digitsValue, List.foldl_append]

theorem digitsValue_reverse_digits (L : List Nat) :
    digitsValue (L.reverse.map (fun d => d + 48)) = Nat.ofDigits 10 L := by
  induction L with
  | nil => simp [digitsValue]
  | cons d t ih =>
    rw [List.reverse_cons, List.map_append, List.map_singleton, digitsValue_append_single, ih,
      Nat.ofDigits_cons]
    simp
    omega

theorem digitsValue_decimal (v : Nat) : digitsValue (decimal v) = v := by
  unfold decimal
  split
  · next h => simp [digitsValue, h]
  · rw [digitsValue_reverse_digits, Nat.ofDigits_digits]

theorem decimal_all_digits (v : Nat) : ∀ c ∈ decimal v, isdigit c = true := by
  unfold decimal
  split
  · intro c hc
    simp at hc
    simp [hc, isdigit]
  · intro c hc
    simp only [List.mem_map, List.mem_reverse] at hc
    obtain ⟨d, hd, rfl⟩ := hc
    have := Nat.digits_lt_base (by decide : 1 < 10) hd
    simp [isdigit]
    omega

theorem decimal_ne_nil (v : Nat) : decimal v ≠ [] := by
  unfold decimal
  split
  · simp
  · next h =>
    simp [Nat.digits_ne_nil_iff_ne_zero, h]

theorem takeWhile_append_stop {p : Nat → Bool} (a : List Nat) (b : Nat) (c : List Nat)
    (ha : ∀ x ∈ a, p x = true) (hb : p b = false) :
    (a ++ b :: c).takeWhile p = a := by
  induction a with
  | nil => simp [List.takeWhile, hb]
  | cons x t ih =>
    have hx := ha x (List.mem_cons_self _ _)
    simp [List.takeWhile, hx, ih (fun y hy => ha y (List.mem_cons_of_mem _ hy))]

theorem dropWhile_append_stop {p : Nat → Bool} (a : List Nat) (b : Nat) (c : List Nat)
    (ha : ∀ x ∈ a, p x = true) (hb : p b = false) :
    (a ++ b :: c).dropWhile p = b :: c := by
  induction a with
  | nil => simp [List.dropWhile, hb]
  | cons x t ih =>
    have hx := ha x (List.mem_cons_self _ _)
    simp [List.dropWhile, hx, ih (fun y hy => ha y (List.mem_cons_of_mem _ hy))]

theorem strtolValue_statsLine (e : StatsLine) (hws : e.WellFormed) :
    strtolValue (e.bytes.dropWhile isspace) = (e.value : Int) := by
  obtain ⟨d, ds, hd⟩ := List.exists_cons_of_ne_nil (decimal_ne_nil e.value)
  have hall := decimal_all_digits e.value
  rw [hd] at hall
  have hdig : isdigit d = true := hall d (List.mem_cons_self _ _)
  have hd48 : 48 ≤ d ∧ d ≤ 57 := by simpa [isdigit] using hdig
  have hnsp : isspace d = false := by
    simp [isspace]
    omega
  have hbytes : e.bytes = e.ws ++ d :: (ds ++ (bytesInSize ++ e.tail)) := by
    simp [StatsLine.bytes, hd]
  have hdrop : e.bytes.dropWhile isspace = d :: (ds ++ (bytesInSize ++ e.tail)) := by
    rw [hbytes]
    exact dropWhile_append_stop e.ws d _ hws hnsp
  have hdrop2 : (d :: (ds ++ (bytesInSize ++ e.tail))).dropWhile isspace =
      d :: (ds ++ (bytesInSize ++ e.tail)) := by
    simp [List.dropWhile, hnsp]
  have htake : (d :: (ds ++ (bytesInSize ++ e.tail))).takeWhile isdigit = d :: ds := by
    have : d :: (ds ++ (bytesInSize ++ e.tail)) =
        (d :: ds) ++ 32 :: ([98, 121, 116, 101, 115, 32, 105, 110, 32, 115, 105, 122, 101] ++
          e.tail) := by
      simp [bytesInSize]
    rw [this]
    exact takeWhile_append_stop (d :: ds) 32 _ hall (by decide)
  rw [hdrop]
  unfold strtolValue
  rw [hdrop2]
  have h45 : d ≠ 45 := by omega
  have h43 : d ≠ 43 := by omega
  simp only [h45, h43, if_false, htake]
  rw [← hd, digitsValue_decimal]

theorem atoi_statsLine (narrow : Int → Int) (e : StatsLine) (hws : e.WellFormed)
    (hint : e.value ≤ 2147483647) :
    atoi narrow (e.bytes.dropWhile isspace) = (e.value : Int) := by
  unfold atoi
  rw [strtolValue_statsLine e hws]
  have h1 : INT_MIN ≤ (e.value : Int) := by
    unfold INT_MIN
    have : (0 : Int) ≤ (e.value : Int) := Int.ofNat_nonneg _
    omega
  have h2 : (e.value : Int) ≤ INT_MAX := by
    unfold INT_MAX
    omega
  simp [h1, h2]

theorem atoi_nonNumeric (narrow : Int → Int) (l : Line) (h : leadsWithNumber l = false) :
    atoi narrow (l.dropWhile isspace) = 0 := by
  have hdd : (l.dropWhile isspace).dropWhile isspace = l.dropWhile isspace := by
    cases hl : l.dropWhile isspace with
    | nil => rfl
    | cons c t =>
      have := List.head_dropWhile_not isspace l (by rw [hl]; simp)
      simp only [hl, List.head_cons] at this
      simp [List.dropWhile, this]
  have hv : strtolValue (l.dropWhile isspace) = 0 := by
    unfold strtolValue
    rw [hdd]
    unfold leadsWithNumber at h
    cases hl : l.dropWhile isspace with
    | nil => rfl
    | cons c t =>
      rw [hl] at h
      simp only [Bool.or_eq_false_iff, Bool.and_eq_false_iff] at h
      obtain ⟨hc, hsign⟩ := h
      have htake0 : ∀ u : List Nat, startsWithDigit u = false →
          digitsValue (u.takeWhile isdigit) = 0 := by
        intro u hu
        cases u with
        | nil => simp [digitsValue]
        | cons d u' =>
          simp only [startsWithDigit] at hu
          simp [List.takeWhile, hu, digitsValue]
      by_cases h45 : c = 45
      · have ht : startsWithDigit t = false := by
          rcases hsign with hs | hs
          · simp [h45] at hs
          · exact hs
        simp [h45, htake0 t ht]
      · by_cases h43 : c = 43
        · have ht : startsWithDigit t = false := by
            rcases hsign with hs | hs
            · simp [h43] at hs
            · exact hs
          simp [h43, htake0 t ht]
        · simp [h45, h43, List.takeWhile, hc, digitsValue]
  unfold atoi
  rw [hv]
  simp [INT_MIN, INT_MAX]

theorem checks_append (a b : List Event) : checks (a ++ b) = checks a ++ checks b := by
  simp [checks, List.filterMap_append]

theorem read_stats_loop_checks (narrow : Int → Int) (show_output eof : Bool)
    (lines : List Line) (hl : GetlineOk lines) (found : Bool) :
    checks (read_stats_loop narrow show_output eof lines found).2 =
      lines.map (fun l => decide (atoi narrow (l.dropWhile isspace) < 10000000)) := by
  induction lines generalizing found with
  | nil => simp [read_stats_loop, checks]
  | cons buf t ih =>
    have hb : buf ≠ [] := hl buf (List.mem_cons_self _ _)
    have ht : GetlineOk t := fun l h => hl l (List.mem_cons_of_mem _ h)
    have hn : (0 : Int) < (buf.length : Int) := by
      have := List.length_pos.mpr hb
      omega
    have ih' := ih ht true
    unfold checks at ih'
    cases show_output <;> simp [read_stats_loop, checks, hn, ih']

theorem read_stats_checks_of_ok (narrow : Int → Int) (show_output : Bool) (env : Env)
    (hp : (pipe_it env).ret ≠ -1) (hf : env.fdopenOk = true) (hl : GetlineOk env.lines) :
    checks (read_stats narrow show_output env).events =
      env.lines.map (fun l => decide (atoi narrow (l.dropWhile isspace) < 10000000)) := by
  rcases pipe_it_ret_cases env with ⟨h', _⟩ | ⟨o0, o1, e0, e1, pid, _, _, _, h⟩
  · exact absurd h' hp
  · have hneg : ¬ ((pid : Int) < 0) := by
      have : (0 : Int) ≤ (pid : Int) := Int.ofNat_nonneg pid
      omega
    unfold read_stats
    rw [h]
    simp only [hneg, if_false, hf, if_true, checks_append,
      read_stats_loop_checks narrow show_output env.readsToEOF env.lines hl]
    simp [checks]

/-- C4, as corrected: in a run of `read_stats` where `pipe_it` and `fdopen`
succeeded, the recorded checks are, line by line, `val < 10000000` with `val`
the `atoi` of the line after skipping white space. If every line is white
space, a decimal integer, " bytes in size" and a remainder, and every such
integer fits the C type `int` (at most 2147483647), all checks pass exactly
when every integer is below 10,000,000, whatever `atoi` does out of range. A
line that does not start with a number parses as 0 and its check passes. -/
theorem read_stats_checks (narrow : Int → Int) (show_output : Bool) (env : Env)
    (hp : (pipe_it env).ret ≠ -1) (hf : env.fdopenOk = true) (hl : GetlineOk env.lines) :
    checks (read_stats narrow show_output env).events =
      env.lines.map (fun l => decide (atoi narrow (l.dropWhile isspace) < 10000000)) ∧
    (∀ entries : List StatsLine, env.lines = entries.map StatsLine.bytes →
      (∀ e ∈ entries, e.WellFormed) → (∀ e ∈ entries, e.value ≤ 2147483647) →
      ((checks (read_stats narrow show_output env).events).all id = true ↔
        ∀ e ∈ entries, e.value < 10000000)) ∧
    (∀ l ∈ env.lines, leadsWithNumber l = false →
      atoi narrow (l.dropWhile isspace) = 0 ∧
      decide (atoi narrow (l.dropWhile isspace) < 10000000) = true) := by
  have hchecks := read_stats_checks_of_ok narrow show_output env hp hf hl
  refine ⟨hchecks, ?_, ?_⟩
  · intro entries hlines hws hint
    rw [hchecks, hlines]
    simp only [List.all_eq_true, List.mem_map, id]
    constructor
    · intro h e he
      have := h (decide (atoi narrow (e.bytes.dropWhile isspace) < 10000000))
        ⟨e.bytes, ⟨e, he, rfl⟩, rfl⟩
      rw [atoi_statsLine narrow e (hws e he) (hint e he)] at this
      have hlt : (e.value : Int) < 10000000 := by simpa using this
      omega
    · rintro h b ⟨l, ⟨e, he, rfl⟩, rfl⟩
      rw [atoi_statsLine narrow e (hws e he) (hint e he)]
      have := h e he
      simp only [decide_eq_true_eq]
      omega
  · intro l _ hnon
    have h0 := atoi_nonNumeric narrow l hnon
    exact ⟨h0, by rw [h0]; decide⟩

/-- C4, instance: the single line "  5120000 bytes in size\n" passes. -/
theorem read_stats_checks_witness :
    (checks (read_stats narrow_glibc64 false statsEnv).events).all id = true ↔
      ∀ e ∈ [(⟨[32, 32], 5120000, [10]⟩ : StatsLine)], e.value < 10000000 :=
  (read_stats_checks narrow_glibc64 false statsEnv (by decide) rfl
    (by simp [GetlineOk, statsEnv, StatsLine.bytes])).2.1
    [⟨[32, 32], 5120000, [10]⟩] rfl
    (by simp [StatsLine.WellFormed, isspace]) (by simp)

/-- C4 as stated fails: with glibc's `atoi` on 64-bit Linux, the line
"2147483648 bytes in size\n" gives `val = -2147483648`, so the check passes
although the leading integer 2147483648 is not below 10,000,000. -/
theorem read_stats_check_passes_on_overflow :
    overflowLine = StatsLine.bytes ⟨[], 2147483648, [10]⟩ ∧
    atoi narrow_glibc64 (overflowLine.dropWhile isspace) = -2147483648 ∧
    (checks (read_stats narrow_glibc64 false
      { sampleEnv with lines := [overflowLine] }).events).all id = true ∧
    ¬ ((2147483648 : Nat) < 10000000) := by
  refine ⟨?_, by decide, by decide, by decide⟩
  simp [overflowLine, StatsLine.bytes, decimal, bytesInSize]

end TraceCmdUtest
